import Mathlib

/-!
Verification of the synchronization engine of `sync_tool.py` (shazamifius/synccloud).

The development shallowly embeds the pure decision logic of the engine:
  * the Python string primitives the engine relies on (`str.split`, `str.strip`,
    `str.replace`, substring tests, `os.path.splitext`, `os.path.basename`, `str.lower`),
    re-implemented structurally over `List Char` so that everything evaluates in the kernel;
  * the large-file policy manager: `verifier_et_mettre_a_jour_lfs` (preventive scan,
    lines 210-285) and `gerer_erreur_lfs_apres_push` (reactive handler, lines 287-329);
  * the sync orchestrator `synchroniser_changement` (lines 332-465), as a state machine
    over an environment supplying the outcome of each git subprocess call per attempt;
  * the debounce handler `SyncHandler` (lines 472-500) over rational event times;
  * the `.gitattributes` bootstrap of `configurer_git_local` (lines 203-207).

Side-effecting git calls (pull, fetch, reset, add, commit, push) are oracles: the
environment says, for each attempt, whether the call succeeds or which diagnostic
text it fails with; the embedding reproduces exactly the control flow the Python
code takes on those outcomes, including which exceptions are caught where.
-/

namespace SyncCloud

/-! ## Python string primitives -/

/-- Membership of a `List Char` as a contiguous sublist, the embedding of the
Python substring test `motif in s`. -/
def estPrefixeListe : List Char → List Char → Bool
  | [], _ => true
  | _ :: _, [] => false
  | a :: reste, b :: apres => a == b && estPrefixeListe reste apres

def estInterieurListe (motif : List Char) : List Char → Bool
  | [] => motif.isEmpty
  | c :: reste => estPrefixeListe motif (c :: reste) || estInterieurListe motif reste

/-- Python `motif in s` (substring test). -/
def strContient (s motif : String) : Bool :=
  estInterieurListe motif.data s.data

/-- Python `s.lower()` (ASCII part, which is all the engine compares). -/
def minuscule (s : String) : String :=
  ⟨s.data.map Char.toLower⟩

/-- Python `s.split(sep)` for a one-character separator. -/
def decoupeSur (sep : Char) : List Char → List (List Char)
  | [] => [[]]
  | c :: reste =>
    let r := decoupeSur sep reste
    if c == sep then [] :: r
    else
      match r with
      | [] => [[c]]
      | x :: xs => (c :: x) :: xs

def estEspace (c : Char) : Bool :=
  c == ' ' || c == '\t' || c == '\n' || c == '\r' || c == '\x0b' || c == '\x0c'

/-- Python `s.strip()`. -/
def rogner (l : List Char) : List Char :=
  ((l.dropWhile estEspace).reverse.dropWhile estEspace).reverse

/-- Python `os.path.basename`: the characters after the last path separator. -/
def pyBasename (p : String) : String :=
  ⟨(p.data.reverse.takeWhile (fun c => !(c == '/' || c == '\\'))).reverse⟩

/-- Split a character list at its last dot: `some (before, '.'-suffix)`. -/
def fendDernierPoint : List Char → Option (List Char × List Char)
  | [] => none
  | c :: reste =>
    match fendDernierPoint reste with
    | some (avant, ext) => some (c :: avant, ext)
    | none => if c == '.' then some ([], '.' :: reste) else none

/-- Python `os.path.splitext(base)[1]` on a path component: the suffix from the last
dot, unless every character before that dot is itself a dot. -/
def pySplitextExt (base : String) : String :=
  match fendDernierPoint base.data with
  | none => ""
  | some (avant, ext) => if avant.any (fun c => c != '.') then ⟨ext⟩ else ""

/-- The extension the engine computes for a path:
`os.path.splitext(os.path.basename(p))[1].lower()`. -/
def extensionDe (chemin : String) : String :=
  minuscule (pySplitextExt (pyBasename chemin))

/-- Python `commit_message.split(':')[-1].strip()` (line 429). -/
def dernierSegmentColon (s : String) : String :=
  ⟨rogner ((decoupeSur ':' s.data).getLastD [])⟩

/-- Bool membership test on a list of strings. -/
def dansListe (x : String) (l : List String) : Bool :=
  l.any (fun y => y == x)

/-! ## The tracking rule file (`.gitattributes`)

The file is modelled as its list of lines (each Python `write` appends whole
lines, and every parse in the source is line-based or by a pattern that cannot
span a newline). -/

/-- The rule line written for an extension: `f"*{ext} filter=lfs diff=lfs merge=lfs -text"`. -/
def ligneRegle (ext : String) : String :=
  "*" ++ ext ++ " filter=lfs diff=lfs merge=lfs -text"

/-- `lfs_entry.split(' ')[0]` (line 309): the pattern whose presence as a substring
of the file content makes the reactive handler a no-op. -/
def motifRegle (ext : String) : String :=
  ⟨(decoupeSur ' ' (ligneRegle ext).data).headD []⟩

/-- Parse of one line of the rule file in the preventive scan (line 239):
`line.split(' ')[0].replace('*', '').strip()`. -/
def extensionDeLigne (ligne : String) : String :=
  ⟨rogner (((decoupeSur ' ' ligne.data).headD []).filter (fun c => c != '*'))⟩

/-- Extensions already tracked by LFS according to the scan (lines 233-241):
only lines containing `filter=lfs` are parsed, and empty parses are dropped. -/
def extensionsSuivies (contenu : List String) : List String :=
  ((contenu.filter (fun l => strContient l "filter=lfs")).map extensionDeLigne).filter
    (fun e => e != "")

/-- The deny-list of the preventive scan (line 246). -/
def extensionsIgnorees : List String :=
  [".txt", ".md", ".json", ".py", ".js", ".html", ".css"]

/-- 10 MiB threshold (line 255). -/
def seuilLfs : Nat := 10 * 1024 * 1024

/-- An untracked or modified-but-unstaged file as the scan sees it:
its repo-relative path, whether `os.path.exists` holds, and its size. -/
structure Fichier where
  chemin : String
  existe : Bool
  taille : Nat
deriving DecidableEq

/-- The per-file condition of lines 248-256. -/
def qualifieLfs (contenu : List String) (f : Fichier) : Bool :=
  let ext := extensionDe f.chemin
  ext != "" && !(dansListe ext (extensionsSuivies contenu))
    && !(dansListe ext extensionsIgnorees)
    && f.existe && decide (f.taille > seuilLfs)

/-- The `new_extensions_to_track` set (lines 243-256), as a deduplicated list. -/
def nouvellesExtensions (contenu : List String) (fichiers : List Fichier) : List String :=
  ((fichiers.filter (qualifieLfs contenu)).map (fun f => extensionDe f.chemin)).dedup

/-- Lines appended by the preventive scan (lines 260-263): the write starts with
a newline, so it contributes an empty line, a comment line, and one rule line
per new extension. -/
def lignesPreventives (exts : List String) : List String :=
  "" :: "# Auto-ajout préventif par SyncTool" :: exts.map ligneRegle

/-- Hook tolerance test of lines 271 and 319: `"Hook" in str(e) and "failed" in str(e)`. -/
def hookTolere (texte : String) : Bool :=
  strContient texte "Hook" && strContient texte "failed"

/-- Observable result of one preventive scan (`verifier_et_mettre_a_jour_lfs`).
`exceptionAttrapee` records a commit exception that was re-raised at line 274 and
then swallowed by the catch-all at line 284; in that case the immediate push of
lines 277-281 is skipped. -/
structure SortieScan where
  contenu : List String
  commitRegleTente : Bool
  hookIgnore : Bool
  exceptionAttrapee : Option String
  pousseePreventive : Bool
deriving DecidableEq

/-- `verifier_et_mettre_a_jour_lfs` (lines 210-285). `commitErr` is the oracle for
`repo.index.commit` at line 268: `none` means it succeeds, `some m` means it raises
a `GitCommandError` with `str(e) = m`. The push of line 278 only gets attempted when
the commit succeeded or was hook-tolerated; its own failure is logged only. -/
def verifierMettreAJourLfs (contenu : List String) (fichiers : List Fichier)
    (commitErr : Option String) : SortieScan :=
  if fichiers.isEmpty then ⟨contenu, false, false, none, false⟩
  else
    let exts := nouvellesExtensions contenu fichiers
    if exts.isEmpty then ⟨contenu, false, false, none, false⟩
    else
      let contenu2 := contenu ++ lignesPreventives exts
      match commitErr with
      | none => ⟨contenu2, true, false, none, true⟩
      | some m =>
        if hookTolere m then ⟨contenu2, true, true, none, true⟩
        else ⟨contenu2, true, false, some m, false⟩

/-- Lines appended by the reactive handler (lines 310-311): a leading newline,
a comment line, and the single rule line. -/
def lignesReactives (ext : String) : List String :=
  ["", "# Auto-ajout par SyncTool pour gérer LFS:", ligneRegle ext]

/-- Python `motif in content` where `content` is the joined rule file. -/
def contenuContient (contenu : List String) (motif : String) : Bool :=
  contenu.any (fun l => strContient l motif)

/-- Observable result of `gerer_erreur_lfs_apres_push`. `succes` is the Python
return value; `exceptionAttrapee` records a non-hook commit exception re-raised at
line 322 and swallowed by the catch-all at line 327 (which returns `False`). -/
structure SortieReactive where
  contenu : List String
  staged : List String
  commitTente : Bool
  hookIgnore : Bool
  exceptionAttrapee : Option String
  succes : Bool
deriving DecidableEq

/-- `gerer_erreur_lfs_apres_push` (lines 287-329). The extension is derived from the
basename of the path hint; absence of an extension fails; if the rule pattern is
already a substring of the file, the handler is a no-op; otherwise rules are
appended, only `.gitattributes` is staged, and a commit is attempted. -/
def gererErreurLfsApresPush (contenu : List String) (cheminFichier : String)
    (commitErr : Option String) : SortieReactive :=
  let ext := extensionDe cheminFichier
  if ext == "" then ⟨contenu, [], false, false, none, false⟩
  else if contenuContient contenu (motifRegle ext) then ⟨contenu, [], false, false, none, false⟩
  else
    let contenu2 := contenu ++ lignesReactives ext
    match commitErr with
    | none => ⟨contenu2, [".gitattributes"], true, false, none, true⟩
    | some m =>
      if hookTolere m then ⟨contenu2, [".gitattributes"], true, true, none, true⟩
      else ⟨contenu2, [".gitattributes"], true, false, some m, false⟩

/-- The base content written by `configurer_git_local` when `.gitattributes` does
not yet exist (`GIT_LFS_ATTRIBUTES`, line 50). -/
def contenuInitial : List String :=
  ["*.exe", "*.zip", "*.rar", "*.7z", "*.mp4", "*.mov", "*.jpg", "*.png",
   "*.psd", "*.ai", "*.pdf", "*.blend"]

/-- The `.gitattributes` bootstrap of `configurer_git_local` (lines 203-207):
written only when the file does not exist, untouched otherwise. -/
def configurerAttributs (existant : Option (List String)) : List String :=
  match existant with
  | none => contenuInitial
  | some c => c

/-! ## The sync orchestrator (`synchroniser_changement`, lines 332-465)

Every git subprocess call is an oracle supplied per attempt by an `EnvTentative`.
A `GitCommandError` carries `str(e)` (used by the hook test) and `str(e.stderr)`
(lowercased and classified by substring matching). -/

structure ErreurGitCmd where
  texte : String
  stderrTexte : String
deriving DecidableEq

/-- Line 355: `"conflict" in error_output or "merge" in error_output`. -/
def estConflit (err : String) : Bool :=
  strContient err "conflict" || strContient err "merge"

/-- Line 423: the size-related push failure classification. -/
def estErreurTaille (err : String) : Bool :=
  strContient err "file size exceeds" || strContient err "rpc failed"
    || strContient err "remote end hung up unexpectedly"

/-- The two commit messages excluded from the "no changes" report (line 415). -/
def messagesInitiaux : List String :=
  ["Initialisation de la synchronisation (via GUI)", "Initialisation par clonage"]

/-- Oracle outcomes of the git calls for one attempt of the loop.
`inattendue` is a non-`GitCommandError` exception raised inside the attempt body
(handled by the `except Exception` at line 451). `scanCommitErr` feeds the
preventive scan commit, `reactifCommitErr` the reactive handler commit.
`aHead` is whether `git rev-parse --verify HEAD` succeeds (line 377), and
`diffIndexHead` whether `repo.index.diff("HEAD")` is non-empty (line 381). -/
structure EnvTentative where
  inattendue : Bool
  fichiersAScanner : List Fichier
  scanCommitErr : Option String
  pullErr : Option ErreurGitCmd
  resetEchec : Bool
  addErr : Option ErreurGitCmd
  aHead : Bool
  diffIndexHead : Bool
  commitErr : Option ErreurGitCmd
  pushErr : Option ErreurGitCmd
  reactifCommitErr : Option String
deriving DecidableEq

/-- How one invocation of the orchestrator terminates. -/
inductive IssueSync where
  | pushReussi (tentative : Nat)
  | resetFatal (tentative : Nat)
  | pasDeChangement (tentative : Nat)
  | erreurGit (tentative : Nat) (e : ErreurGitCmd)
  | erreurInattendue (tentative : Nat)
  | tentativesEpuisees
deriving DecidableEq

/-- Counters of the side-effecting git operations performed over a run:
`git add .` calls, content commits (line 384), rule-file commit attempts
(preventive line 268 or reactive line 317), final push attempts (line 401),
successful forced alignments (lines 359-360), and failed ones (line 363). -/
structure Trace where
  ajoutsIndex : Nat
  commitsContenu : Nat
  commitsRegles : Nat
  poussesFinales : Nat
  alignementsForces : Nat
  echecsAlignement : Nat
deriving DecidableEq

def traceVide : Trace := ⟨0, 0, 0, 0, 0, 0⟩

def Trace.plus (a b : Trace) : Trace :=
  ⟨a.ajoutsIndex + b.ajoutsIndex, a.commitsContenu + b.commitsContenu,
   a.commitsRegles + b.commitsRegles, a.poussesFinales + b.poussesFinales,
   a.alignementsForces + b.alignementsForces, a.echecsAlignement + b.echecsAlignement⟩

/-- Result of one iteration of the attempt loop: the rule-file content, the
operations performed, and `some (issue, fermé)` when the function returns inside
this iteration (`fermé` = whether `repo.close()` was called on that return path),
or `none` when the loop moves to the next attempt. -/
structure PasTentative where
  contenu : List String
  trace : Trace
  fin : Option (IssueSync × Bool)
deriving DecidableEq

/-- Lines 419-449, the `except GitCommandError` handler of the attempt body:
classify `str(e.stderr).lower()`; on a size-related failure derive the file name
from the commit message and run the reactive handler; retry (`continue`) only if
it reports success; every terminating branch of this handler calls `repo.close()`. -/
def gereErreurGitExterne (msgCommit : String) (e : EnvTentative) (t : Nat)
    (c : List String) (tr : Trace) (ex : ErreurGitCmd) : PasTentative :=
  if estErreurTaille (minuscule ex.stderrTexte) then
    let nom := dernierSegmentColon msgCommit
    if nom == "" then ⟨c, tr, some (.erreurGit t ex, true)⟩
    else
      let sr := gererErreurLfsApresPush c nom e.reactifCommitErr
      let tr2 := tr.plus ⟨0, 0, if sr.commitTente then 1 else 0, 0, 0, 0⟩
      if sr.succes then ⟨sr.contenu, tr2, none⟩
      else ⟨sr.contenu, tr2, some (.erreurGit t ex, true)⟩
  else ⟨c, tr, some (.erreurGit t ex, true)⟩

/-- Lines 383-401 after the commit decision went to the commit branch: commit
(hook failures tolerated at lines 387-388, any other commit error goes to the
outer handler), LFS push (warning only), then the final forced push. -/
def pousseeFinale (msgCommit : String) (e : EnvTentative) (t : Nat)
    (c : List String) (tr : Trace) : PasTentative :=
  let tr2 := { tr with commitsContenu := tr.commitsContenu + 1,
                       poussesFinales := tr.poussesFinales + 1 }
  match e.pushErr with
  | none => ⟨c, tr2, some (.pushReussi t, true)⟩
  | some ex => gereErreurGitExterne msgCommit e t c tr2 ex

/-- Lines 374-417: the commit decision. Either commit and push, or — when a head
exists, the stage matches it, this is the first attempt and the message is not an
initialization message — report "no changes" and return (without `repo.close()`);
otherwise fall through to the next loop iteration. -/
def apresAjout (msgCommit : String) (e : EnvTentative) (t : Nat)
    (c : List String) (tr : Trace) : PasTentative :=
  if !e.aHead || e.diffIndexHead then
    match e.commitErr with
    | none => pousseeFinale msgCommit e t c tr
    | some ex =>
      if hookTolere ex.texte then pousseeFinale msgCommit e t c tr
      else gereErreurGitExterne msgCommit e t c tr ex
  else
    if e.aHead && t == 0 && !(dansListe msgCommit messagesInitiaux) then
      ⟨c, tr, some (.pasDeChangement t, false)⟩
    else ⟨c, tr, none⟩

/-- Line 372 (`repo.index.add(['.'])`) and onwards: an add failure goes to the
outer `GitCommandError` handler. -/
def apresPull (msgCommit : String) (e : EnvTentative) (t : Nat)
    (c : List String) (tr : Trace) : PasTentative :=
  let tr1 := { tr with ajoutsIndex := tr.ajoutsIndex + 1 }
  match e.addErr with
  | some ex => gereErreurGitExterne msgCommit e t c tr1 ex
  | none => apresAjout msgCommit e t c tr1

/-- One iteration of the attempt loop (lines 342-417 with handlers 419-462):
preventive scan, pull with conflict handling (a failed `reset --hard` returns
immediately, without `repo.close()` — line 365), stage, commit decision, push. -/
def executeTentative (msgCommit : String) (e : EnvTentative) (t : Nat)
    (c : List String) : PasTentative :=
  if e.inattendue then ⟨c, traceVide, some (.erreurInattendue t, true)⟩
  else
    let s := verifierMettreAJourLfs c e.fichiersAScanner e.scanCommitErr
    let tr := Trace.mk 0 0 (if s.commitRegleTente then 1 else 0) 0 0 0
    match e.pullErr with
    | none => apresPull msgCommit e t s.contenu tr
    | some pe =>
      if estConflit (minuscule pe.stderrTexte) then
        if e.resetEchec then
          ⟨s.contenu, { tr with echecsAlignement := 1 }, some (.resetFatal t, false)⟩
        else apresPull msgCommit e t s.contenu { tr with alignementsForces := 1 }
      else apresPull msgCommit e t s.contenu tr

/-- Final state of one orchestrator invocation. `tentatives` counts the loop
iterations that started; `ferme` whether `repo.close()` was called. -/
structure SortieSync where
  issue : IssueSync
  contenu : List String
  ferme : Bool
  tentatives : Nat
  trace : Trace
deriving DecidableEq

/-- The attempt loop (`for attempt in range(max_retries)`): runs while iterations
remain and the body neither returns nor pushes successfully; falling off the end
is the logged terminal failure of line 465 (no `repo.close()`). -/
def boucleSync (msgCommit : String) (env : Nat → EnvTentative) :
    Nat → Nat → List String → Trace → SortieSync
  | 0, t, c, tr => ⟨.tentativesEpuisees, c, false, t, tr⟩
  | restantes + 1, t, c, tr =>
    match executeTentative msgCommit (env t) t c with
    | ⟨c2, tr2, some (issue, ferme)⟩ => ⟨issue, c2, ferme, t + 1, tr.plus tr2⟩
    | ⟨c2, tr2, none⟩ => boucleSync msgCommit env restantes (t + 1) c2 (tr.plus tr2)

/-- `synchroniser_changement` with `max_retries = 2` (line 339). -/
def synchroniserChangement (msgCommit : String) (env : Nat → EnvTentative)
    (c0 : List String) : SortieSync :=
  boucleSync msgCommit env 2 0 c0 traceVide

/-- Pull outcomes that terminate the whole invocation during the pull step:
a failure classified as a merge conflict whose forced alignment itself fails. -/
def pullTermineTentative (e : EnvTentative) : Bool :=
  match e.pullErr with
  | none => false
  | some pe => estConflit (minuscule pe.stderrTexte) && e.resetEchec

/-- The commit of line 384 does not escape to the outer handler: either it
succeeds or the failure is hook-tolerated. -/
def commitSansLevee (e : EnvTentative) : Bool :=
  match e.commitErr with
  | none => true
  | some ex => hookTolere ex.texte

/-- The attempt body reaches the final push: no unexpected exception, the pull
step does not terminate the run, the stage succeeds, the commit branch is taken
and the commit does not escape. -/
def atteintPousseFinale (e : EnvTentative) : Bool :=
  !e.inattendue && !pullTermineTentative e && e.addErr.isNone
    && (!e.aHead || e.diffIndexHead) && commitSansLevee e

/-- On which terminal issues the source calls `repo.close()`: successful push
(line 406), outer git error (line 443), unexpected exception (line 456) — but
not on the "no changes" return (line 417), the failed-reset return (line 365),
or exhaustion of the loop (line 465). -/
def fermetureAttendue : IssueSync → Bool
  | .pushReussi _ => true
  | .erreurGit _ _ => true
  | .erreurInattendue _ => true
  | .resetFatal _ => false
  | .pasDeChangement _ => false
  | .tentativesEpuisees => false

/-! ## The change aggregator (`SyncHandler`, lines 472-500)

Event times are rationals; the debounce state is the fire time of the armed
timer, if any. On each event the pending timer is cancelled — unless it has
already fired, which is recorded — and re-armed at the event time plus the quiet
window. After the last event the remaining timer fires. -/

def delaiDebounce : ℚ := 3

def pasDebounce (d : ℚ) (etat : Option ℚ) (tirs : List ℚ) (t : ℚ) :
    Option ℚ × List ℚ :=
  match etat with
  | none => (some (t + d), tirs)
  | some f => if f ≤ t then (some (t + d), tirs ++ [f]) else (some (t + d), tirs)

/-- The times at which the debouncer invokes the orchestrator, given the
qualifying event times in order. -/
def tirsDebounce (d : ℚ) (evts : List ℚ) : List ℚ :=
  match evts.foldl (fun p t => pasDebounce d p.1 p.2 t) ((none : Option ℚ), ([] : List ℚ)) with
  | (none, tirs) => tirs
  | (some f, tirs) => tirs ++ [f]

/-- The event filter of `on_any_event` (lines 481-485): directory events and
paths containing `.git`, `.gitattributes`, `sync_token.txt` or `sync_config.json`
are dropped; every other event cancels and re-arms the timer. -/
def traiteEvenement (estRepertoire : Bool) (chemin : String) : Bool :=
  !estRepertoire && !(strContient chemin ".git") && !(strContient chemin ".gitattributes")
    && !(strContient chemin "sync_token.txt") && !(strContient chemin "sync_config.json")

/-! ## General lemmas about the embedding -/

lemma estInterieurListe_append_gauche (m l2 : List Char)
    (h : estInterieurListe m l2 = true) (l1 : List Char) :
    estInterieurListe m (l1 ++ l2) = true := by
  induction l1 with
  | nil => simpa using h
  | cons c reste ih =>
    simp only [List.cons_append, estInterieurListe]
    simp [ih]

lemma donnees_ligneRegle (e : String) :
    (ligneRegle e).data = '*' :: (e.data ++ (" filter=lfs diff=lfs merge=lfs -text").data) := by
  simp only [ligneRegle, String.data_append]
  rfl

lemma ligneRegle_contient_filtre (e : String) :
    strContient (ligneRegle e) "filter=lfs" = true := by
  unfold strContient
  rw [donnees_ligneRegle]
  have h2 : estInterieurListe ("filter=lfs").data
      ((" filter=lfs diff=lfs merge=lfs -text").data) = true := by decide
  have h3 := estInterieurListe_append_gauche _ _ h2 e.data
  simp only [estInterieurListe]
  simp [h3]

lemma ligneRegle_tete (e : String) : (ligneRegle e).data.head? = some '*' := by
  rw [donnees_ligneRegle]; rfl

lemma ligneRegle_ne (e : String) (s : String) (hs : s.data.head? ≠ some '*') :
    ligneRegle e ≠ s := by
  intro h
  apply hs
  rw [← h]
  exact ligneRegle_tete e

lemma dansListe_iff (x : String) (l : List String) : dansListe x l = true ↔ x ∈ l := by
  simp [dansListe, List.any_eq_true, beq_iff_eq]

lemma dansListe_eq_false_iff (x : String) (l : List String) :
    dansListe x l = false ↔ x ∉ l := by
  rw [← Bool.not_eq_true, dansListe_iff]

lemma extensionsSuivies_append (a b : List String) :
    extensionsSuivies (a ++ b) = extensionsSuivies a ++ extensionsSuivies b := by
  simp [extensionsSuivies, List.filter_append, List.map_append]

lemma qualifie_iff (c : List String) (f : Fichier) : qualifieLfs c f = true ↔
    extensionDe f.chemin ≠ "" ∧ extensionDe f.chemin ∉ extensionsSuivies c
      ∧ extensionDe f.chemin ∉ extensionsIgnorees ∧ f.existe = true ∧ f.taille > seuilLfs := by
  simp only [qualifieLfs, Bool.and_eq_true, bne_iff_ne, ne_eq, Bool.not_eq_true',
    dansListe_eq_false_iff, decide_eq_true_eq]
  tauto

lemma mem_nouvelles (c : List String) (fichiers : List Fichier) (ext : String) :
    ext ∈ nouvellesExtensions c fichiers ↔
      ∃ f ∈ fichiers, qualifieLfs c f = true ∧ extensionDe f.chemin = ext := by
  simp only [nouvellesExtensions, List.mem_dedup, List.mem_map, List.mem_filter]
  constructor
  · rintro ⟨f, ⟨hf, hq⟩, he⟩
    exact ⟨f, hf, hq, he⟩
  · rintro ⟨f, hf, hq, he⟩
    exact ⟨f, ⟨hf, hq⟩, he⟩

lemma fendDernierPoint_point (l : List Char) :
    ∀ avant ext, fendDernierPoint l = some (avant, ext) → ∃ reste, ext = '.' :: reste := by
  induction l with
  | nil => intro a e h; simp [fendDernierPoint] at h
  | cons c cs ih =>
    intro a e h
    unfold fendDernierPoint at h
    split at h
    · rename_i b e2 heq
      obtain ⟨h1, h2⟩ : c :: b = a ∧ e2 = e := by simpa using h
      subst h2
      exact ih b _ heq
    · split at h
      · obtain ⟨h1, h2⟩ : ([] : List Char) = a ∧ '.' :: cs = e := by simpa using h
        exact ⟨cs, h2.symm⟩
      · simp at h

lemma extension_tete (chemin : String) (h : extensionDe chemin ≠ "") :
    ∃ reste, (extensionDe chemin).data = '.' :: reste := by
  have hdef : extensionDe chemin = minuscule (pySplitextExt (pyBasename chemin)) := rfl
  rcases hfd : fendDernierPoint (pyBasename chemin).data with _ | ⟨avant, ext⟩
  · exfalso
    apply h
    rw [hdef]
    unfold pySplitextExt
    rw [hfd]
    rfl
  · by_cases ha : avant.any (fun c => c != '.') = true
    · obtain ⟨reste, rfl⟩ := fendDernierPoint_point _ _ _ hfd
      refine ⟨reste.map Char.toLower, ?_⟩
      rw [hdef]
      unfold pySplitextExt
      rw [hfd]
      dsimp only
      rw [if_pos ha]
      rfl
    · exfalso
      apply h
      rw [hdef]
      unfold pySplitextExt
      rw [hfd]
      dsimp only
      rw [if_neg ha]
      rfl

lemma compte_image_unique (l : List String) (f : String → String) (e : String)
    (he : e ∈ l) (hnd : l.Nodup)
    (hinj : ∀ a ∈ l, f a = f e → a = e) :
    (l.map f).count (f e) = 1 := by
  induction l with
  | nil => simp at he
  | cons a reste ih =>
    by_cases hae : a = e
    · subst hae
      have hz : (reste.map f).count (f a) = 0 := by
        rw [List.count_eq_zero]
        intro hmem
        obtain ⟨b, hb, hfb⟩ := List.mem_map.mp hmem
        have hba : b = a := hinj b (List.mem_cons_of_mem _ hb) hfb
        exact (List.nodup_cons.mp hnd).1 (hba ▸ hb)
      simp [List.count_cons, hz]
    · have hr : e ∈ reste := by
        rcases List.mem_cons.mp he with h1 | h1
        · exact absurd h1.symm hae
        · exact h1
      have hne : f a ≠ f e := fun hfa => hae (hinj a (List.mem_cons_self _ _) hfa)
      have hcnt := ih hr (List.nodup_cons.mp hnd).2
        (fun b hb => hinj b (List.mem_cons_of_mem _ hb))
      simp [List.count_cons, hcnt, hne]

lemma scan_contenu_suffixe (c : List String) (fichiers : List Fichier) (ce : Option String) :
    ∃ s, (verifierMettreAJourLfs c fichiers ce).contenu = c ++ s := by
  unfold verifierMettreAJourLfs
  dsimp only
  by_cases h1 : fichiers.isEmpty = true
  · rw [if_pos h1]
    exact ⟨[], by simp⟩
  · rw [if_neg h1]
    by_cases h2 : (nouvellesExtensions c fichiers).isEmpty = true
    · rw [if_pos h2]
      exact ⟨[], by simp⟩
    · rw [if_neg h2]
      rcases ce with _ | m
      · exact ⟨_, rfl⟩
      · dsimp only
        by_cases h3 : hookTolere m = true
        · rw [if_pos h3]
          exact ⟨_, rfl⟩
        · rw [if_neg h3]
          exact ⟨_, rfl⟩

lemma reactif_contenu_suffixe (c : List String) (p : String) (ce : Option String) :
    ∃ s, (gererErreurLfsApresPush c p ce).contenu = c ++ s := by
  unfold gererErreurLfsApresPush
  dsimp only
  by_cases h1 : (extensionDe p == "") = true
  · rw [if_pos h1]
    exact ⟨[], by simp⟩
  · rw [if_neg h1]
    by_cases h2 : contenuContient c (motifRegle (extensionDe p)) = true
    · rw [if_pos h2]
      exact ⟨[], by simp⟩
    · rw [if_neg h2]
      rcases ce with _ | m
      · exact ⟨_, rfl⟩
      · dsimp only
        by_cases h3 : hookTolere m = true
        · rw [if_pos h3]
          exact ⟨_, rfl⟩
        · rw [if_neg h3]
          exact ⟨_, rfl⟩

/-! ## Claim C10 — the debouncer's event filter -/

/-- C10: the event filter handles an event iff it is not a directory event and
its path contains none of `.git`, `.gitattributes`, `sync_token.txt`,
`sync_config.json` as a substring; in particular a path containing
`.gitattributes` (engine edits to the tracking rule file) never arms the
timer, and neither does any path merely containing `.git`. -/
theorem C10_filtre_evenements (estRepertoire : Bool) (chemin : String) :
    (traiteEvenement estRepertoire chemin = true ↔
      estRepertoire = false ∧ strContient chemin ".git" = false
        ∧ strContient chemin ".gitattributes" = false
        ∧ strContient chemin "sync_token.txt" = false
        ∧ strContient chemin "sync_config.json" = false)
    ∧ (strContient chemin ".gitattributes" = true →
        traiteEvenement estRepertoire chemin = false)
    ∧ (strContient chemin ".git" = true →
        traiteEvenement estRepertoire chemin = false)
    ∧ (estRepertoire = true → traiteEvenement estRepertoire chemin = false) := by
  unfold traiteEvenement
  cases estRepertoire <;>
    cases h1 : strContient chemin ".git" <;>
    cases h2 : strContient chemin ".gitattributes" <;>
    cases h3 : strContient chemin "sync_token.txt" <;>
    cases h4 : strContient chemin "sync_config.json" <;>
    simp

/-- Witness for C10 at concrete inputs: an engine edit to the rule file and a
user path containing `.git` are both filtered out. -/
theorem C10_temoin :
    traiteEvenement false "monDossier/.gitattributes" = false
      ∧ traiteEvenement false "monDossier/notes.github.txt" = false :=
  ⟨(C10_filtre_evenements false "monDossier/.gitattributes").2.1 (by decide),
   (C10_filtre_evenements false "monDossier/notes.github.txt").2.2.1 (by decide)⟩

/-! ## Claim C8 — the rule file is append-only -/

/-- C8: `configurer_git_local` writes the initial content only when the file does
not exist; the preventive and reactive mutations always produce the old content
followed by an appended suffix, so every prefix of the previous content remains
a prefix afterwards. -/
theorem C8_regle_append_only :
    (configurerAttributs none = contenuInitial)
    ∧ (∀ c, configurerAttributs (some c) = c)
    ∧ (∀ c fichiers ce, ∃ s, (verifierMettreAJourLfs c fichiers ce).contenu = c ++ s)
    ∧ (∀ c chemin ce, ∃ s, (gererErreurLfsApresPush c chemin ce).contenu = c ++ s)
    ∧ (∀ c fichiers ce (p : List String), p <+: c →
        p <+: (verifierMettreAJourLfs c fichiers ce).contenu)
    ∧ (∀ c chemin ce (p : List String), p <+: c →
        p <+: (gererErreurLfsApresPush c chemin ce).contenu) := by
  refine ⟨rfl, fun c => rfl, scan_contenu_suffixe, reactif_contenu_suffixe, ?_, ?_⟩
  · intro c fichiers ce p hp
    obtain ⟨s, hs⟩ := scan_contenu_suffixe c fichiers ce
    rw [hs]
    exact hp.trans (List.prefix_append c s)
  · intro c chemin ce p hp
    obtain ⟨s, hs⟩ := reactif_contenu_suffixe c chemin ce
    rw [hs]
    exact hp.trans (List.prefix_append c s)

/-- Witness for C8: a concrete prefix of a concrete rule file survives both a
preventive scan that appends a rule and a reactive correction. -/
theorem C8_temoin :
    ["*.exe"] <+: (verifierMettreAJourLfs ["*.exe", "*.zip"]
        [⟨"grand.blend2", true, 11534336⟩] none).contenu
    ∧ ["*.exe"] <+: (gererErreurLfsApresPush ["*.exe", "*.zip"] "grand.psd" none).contenu :=
  ⟨C8_regle_append_only.2.2.2.2.1 ["*.exe", "*.zip"] [⟨"grand.blend2", true, 11534336⟩] none
      ["*.exe"] (by decide),
   C8_regle_append_only.2.2.2.2.2 ["*.exe", "*.zip"] "grand.psd" none ["*.exe"] (by decide)⟩

/-! ## Claim C5 — the reactive handler -/

/-- C5: the reactive handler fails when no extension can be derived from the
path hint; when the rule pattern is absent it appends the lines (containing the
rule line exactly once), stages only the rule file, commits, and reports
success; when the pattern is already present it is a no-op with no success. -/
theorem C5_gestion_reactive (contenu : List String) (chemin : String) :
    (extensionDe chemin = "" → ∀ ce,
      gererErreurLfsApresPush contenu chemin ce = ⟨contenu, [], false, false, none, false⟩)
    ∧ (extensionDe chemin ≠ "" →
        contenuContient contenu (motifRegle (extensionDe chemin)) = false →
        gererErreurLfsApresPush contenu chemin none =
          ⟨contenu ++ lignesReactives (extensionDe chemin), [".gitattributes"],
            true, false, none, true⟩
        ∧ (lignesReactives (extensionDe chemin)).count (ligneRegle (extensionDe chemin)) = 1)
    ∧ (extensionDe chemin ≠ "" →
        contenuContient contenu (motifRegle (extensionDe chemin)) = true → ∀ ce,
        gererErreurLfsApresPush contenu chemin ce = ⟨contenu, [], false, false, none, false⟩) := by
  refine ⟨?_, ?_, ?_⟩
  · intro h ce
    have hb : (extensionDe chemin == "") = true := by simpa [beq_iff_eq] using h
    unfold gererErreurLfsApresPush
    dsimp only
    rw [if_pos hb]
  · intro h hm
    have hb : (extensionDe chemin == "") = false := by simpa [beq_eq_false_iff_ne] using h
    constructor
    · unfold gererErreurLfsApresPush
      dsimp only
      rw [if_neg (by simp [hb]), if_neg (by simp [hm])]
    · have h1 : ligneRegle (extensionDe chemin) ≠ "" :=
        ligneRegle_ne _ _ (by decide)
      have h2 : ligneRegle (extensionDe chemin) ≠ "# Auto-ajout par SyncTool pour gérer LFS:" :=
        ligneRegle_ne _ _ (by decide)
      simp [lignesReactives, List.count_cons, h1, h2]
  · intro h hm ce
    have hb : (extensionDe chemin == "") = false := by simpa [beq_eq_false_iff_ne] using h
    unfold gererErreurLfsApresPush
    dsimp only
    rw [if_neg (by simp [hb]), if_pos hm]

/-! ## Claim C4 — the preventive scan -/

lemma scan_sans_nouvelles (c : List String) (fichiers : List Fichier) (ce : Option String)
    (h : nouvellesExtensions c fichiers = []) :
    verifierMettreAJourLfs c fichiers ce = ⟨c, false, false, none, false⟩ := by
  unfold verifierMettreAJourLfs
  dsimp only
  by_cases h1 : fichiers.isEmpty = true
  · rw [if_pos h1]
  · rw [if_neg h1, if_pos (by simp [h])]

lemma scan_contenu_ajoute (c : List String) (fichiers : List Fichier) (ce : Option String)
    (h1 : fichiers ≠ []) (h2 : nouvellesExtensions c fichiers ≠ []) :
    (verifierMettreAJourLfs c fichiers ce).contenu
      = c ++ lignesPreventives (nouvellesExtensions c fichiers) := by
  have hf : ¬fichiers.isEmpty = true := by simp [List.isEmpty_iff, h1]
  have hn : ¬(nouvellesExtensions c fichiers).isEmpty = true := by simp [List.isEmpty_iff, h2]
  unfold verifierMettreAJourLfs
  dsimp only
  rw [if_neg hf, if_neg hn]
  rcases ce with _ | m
  · rfl
  · dsimp only
    by_cases h3 : hookTolere m = true
    · rw [if_pos h3]
    · rw [if_neg h3]

lemma mem_suivies_de_ligne (contenu : List String) (e : String)
    (hmem : ligneRegle e ∈ contenu) (hrt : extensionDeLigne (ligneRegle e) = e)
    (hne : e ≠ "") : e ∈ extensionsSuivies contenu := by
  unfold extensionsSuivies
  refine List.mem_filter.mpr ⟨?_, by simpa [bne_iff_ne] using hne⟩
  exact List.mem_map.mpr ⟨ligneRegle e,
    List.mem_filter.mpr ⟨hmem, ligneRegle_contient_filtre e⟩, hrt⟩

lemma nouvelle_ne_vide (c : List String) (fichiers : List Fichier) (e : String)
    (he : e ∈ nouvellesExtensions c fichiers) : e ≠ "" := by
  obtain ⟨f, _, hq, hext⟩ := (mem_nouvelles c fichiers e).mp he
  obtain ⟨hne, -, -, -, -⟩ := (qualifie_iff c f).mp hq
  exact hext ▸ hne

lemma nouvelle_non_suivie (c : List String) (fichiers : List Fichier) (e : String)
    (he : e ∈ nouvellesExtensions c fichiers) : e ∉ extensionsSuivies c := by
  obtain ⟨f, _, hq, hext⟩ := (mem_nouvelles c fichiers e).mp he
  obtain ⟨-, hns, -, -, -⟩ := (qualifie_iff c f).mp hq
  exact hext ▸ hns

lemma suivies_apres_scan (c : List String) (fichiers : List Fichier) (e : String)
    (he : e ∈ nouvellesExtensions c fichiers)
    (hrt : extensionDeLigne (ligneRegle e) = e) :
    e ∈ extensionsSuivies (c ++ lignesPreventives (nouvellesExtensions c fichiers)) := by
  rw [extensionsSuivies_append]
  refine List.mem_append_right _ ?_
  exact mem_suivies_de_ligne _ e
    (by
      unfold lignesPreventives
      exact List.mem_cons_of_mem _ (List.mem_cons_of_mem _
        (List.mem_map.mpr ⟨e, he, rfl⟩)))
    hrt (nouvelle_ne_vide c fichiers e he)

lemma qualifie_apres_scan_faux (c : List String) (fichiers : List Fichier)
    (hrt : ∀ e ∈ nouvellesExtensions c fichiers, extensionDeLigne (ligneRegle e) = e)
    (f : Fichier) (hf : f ∈ fichiers) :
    qualifieLfs (c ++ lignesPreventives (nouvellesExtensions c fichiers)) f = false := by
  set c1 := c ++ lignesPreventives (nouvellesExtensions c fichiers) with hc1
  rw [← Bool.not_eq_true]
  intro hq1
  obtain ⟨hne, hns1, hni, hex, hta⟩ := (qualifie_iff c1 f).mp hq1
  by_cases hq : qualifieLfs c f = true
  · have hmem : extensionDe f.chemin ∈ nouvellesExtensions c fichiers :=
      (mem_nouvelles c fichiers _).mpr ⟨f, hf, hq, rfl⟩
    exact hns1 (suivies_apres_scan c fichiers _ hmem (hrt _ hmem))
  · apply hq
    refine (qualifie_iff c f).mpr ⟨hne, ?_, hni, hex, hta⟩
    intro hs
    apply hns1
    rw [hc1, extensionsSuivies_append]
    exact List.mem_append_left _ hs

lemma nouvelles_videes (c1 : List String) (fichiers : List Fichier)
    (h : ∀ f ∈ fichiers, qualifieLfs c1 f = false) :
    nouvellesExtensions c1 fichiers = [] := by
  unfold nouvellesExtensions
  rw [List.filter_eq_nil_iff.mpr (fun f hf => by simp [h f hf]), List.map_nil, List.dedup_nil]

lemma nouvelles_apres_scan (c : List String) (fichiers : List Fichier)
    (hrt : ∀ e ∈ nouvellesExtensions c fichiers, extensionDeLigne (ligneRegle e) = e) :
    nouvellesExtensions (c ++ lignesPreventives (nouvellesExtensions c fichiers)) fichiers
      = [] :=
  nouvelles_videes _ fichiers (qualifie_apres_scan_faux c fichiers hrt)

lemma compte_regle_absente (c : List String) (fichiers : List Fichier) (e : String)
    (he : e ∈ nouvellesExtensions c fichiers)
    (hrt : extensionDeLigne (ligneRegle e) = e) :
    c.count (ligneRegle e) = 0 := by
  rw [List.count_eq_zero]
  intro hmem
  exact nouvelle_non_suivie c fichiers e he
    (mem_suivies_de_ligne c e hmem hrt (nouvelle_ne_vide c fichiers e he))

lemma compte_regle_preventive (c : List String) (fichiers : List Fichier) (e : String)
    (he : e ∈ nouvellesExtensions c fichiers)
    (hrt : ∀ a ∈ nouvellesExtensions c fichiers, extensionDeLigne (ligneRegle a) = a) :
    (lignesPreventives (nouvellesExtensions c fichiers)).count (ligneRegle e) = 1 := by
  have h1 : ligneRegle e ≠ "" := ligneRegle_ne _ _ (by decide)
  have h2 : ligneRegle e ≠ "# Auto-ajout préventif par SyncTool" :=
    ligneRegle_ne _ _ (by decide)
  have hcarte : ((nouvellesExtensions c fichiers).map ligneRegle).count (ligneRegle e) = 1 := by
    refine compte_image_unique _ ligneRegle e he (List.nodup_dedup _) ?_
    intro a ha hla
    have : extensionDeLigne (ligneRegle a) = extensionDeLigne (ligneRegle e) := by rw [hla]
    rw [hrt a ha, hrt e he] at this
    exact this
  simp [lignesPreventives, List.count_cons, h1, h2, hcarte]

/-- C4 counterexample to the claim as stated: over the unchanged oversized file
`movie.part 1` (extension `.part 1`, 11 MiB), two successive preventive scans
append the same rule line twice — the tracked-extension parser reads a rule line
only up to its first space, so it recovers `.part` and never recognizes
`.part 1` as already tracked. -/
theorem C4_contre_exemple :
    (verifierMettreAJourLfs
        (verifierMettreAJourLfs [] [⟨"movie.part 1", true, 11534336⟩] none).contenu
        [⟨"movie.part 1", true, 11534336⟩] none).contenu.count (ligneRegle ".part 1") = 2
    ∧ (verifierMettreAJourLfs
        (verifierMettreAJourLfs [] [⟨"movie.part 1", true, 11534336⟩] none).contenu
        [⟨"movie.part 1", true, 11534336⟩] none).contenu
      ≠ (verifierMettreAJourLfs [] [⟨"movie.part 1", true, 11534336⟩] none).contenu := by
  constructor
  · decide
  · decide

/-- C4 (amended): the scan adds a rule for an extension iff some scanned file has
that (case-insensitively computed, non-empty) extension, it is not in the
deny-list, not already tracked in the rule file (per the scan's parse of
`filter=lfs` lines), and the file exists with size over 10 MiB; and — provided
each added extension is recovered intact by the rule-line parser, which holds for
every ordinary dot-extension but fails e.g. for extensions containing a space —
each qualifying rule line is appended exactly once and a second scan over the
unchanged file set appends nothing. -/
theorem C4_scan_preventif (c : List String) (fichiers : List Fichier) (ce ce2 : Option String)
    (hrt : ∀ e ∈ nouvellesExtensions c fichiers, extensionDeLigne (ligneRegle e) = e) :
    (∀ ext, ext ∈ nouvellesExtensions c fichiers ↔
      ∃ f ∈ fichiers, extensionDe f.chemin = ext ∧ ext ≠ ""
        ∧ ext ∉ extensionsSuivies c ∧ ext ∉ extensionsIgnorees
        ∧ f.existe = true ∧ f.taille > seuilLfs)
    ∧ (nouvellesExtensions c fichiers = [] → (verifierMettreAJourLfs c fichiers ce).contenu = c)
    ∧ (fichiers ≠ [] → nouvellesExtensions c fichiers ≠ [] →
        (verifierMettreAJourLfs c fichiers ce).contenu
          = c ++ lignesPreventives (nouvellesExtensions c fichiers))
    ∧ (∀ e ∈ nouvellesExtensions c fichiers, c.count (ligneRegle e) = 0)
    ∧ (∀ e ∈ nouvellesExtensions c fichiers,
        ((verifierMettreAJourLfs c fichiers ce).contenu).count (ligneRegle e) = 1)
    ∧ (verifierMettreAJourLfs (verifierMettreAJourLfs c fichiers ce).contenu fichiers ce2
        = ⟨(verifierMettreAJourLfs c fichiers ce).contenu, false, false, none, false⟩) := by
  have hiff : ∀ ext, ext ∈ nouvellesExtensions c fichiers ↔
      ∃ f ∈ fichiers, extensionDe f.chemin = ext ∧ ext ≠ ""
        ∧ ext ∉ extensionsSuivies c ∧ ext ∉ extensionsIgnorees
        ∧ f.existe = true ∧ f.taille > seuilLfs := by
    intro ext
    rw [mem_nouvelles]
    constructor
    · rintro ⟨f, hf, hq, hext⟩
      obtain ⟨h1, h2, h3, h4, h5⟩ := (qualifie_iff c f).mp hq
      exact ⟨f, hf, hext, hext ▸ h1, hext ▸ h2, hext ▸ h3, h4, h5⟩
    · rintro ⟨f, hf, hext, h1, h2, h3, h4, h5⟩
      exact ⟨f, hf, (qualifie_iff c f).mpr
        ⟨hext.symm ▸ h1, hext.symm ▸ h2, hext.symm ▸ h3, h4, h5⟩, hext⟩
  refine ⟨hiff, ?_, scan_contenu_ajoute c fichiers ce, ?_, ?_, ?_⟩
  · intro h
    rw [scan_sans_nouvelles c fichiers ce h]
  · intro e he
    exact compte_regle_absente c fichiers e he (hrt e he)
  · intro e he
    have hfne : fichiers ≠ [] := by
      obtain ⟨f, hf, -⟩ := (hiff e).mp he
      intro hnil
      rw [hnil] at hf
      simp at hf
    have hne : nouvellesExtensions c fichiers ≠ [] := by
      intro hnil
      rw [hnil] at he
      simp at he
    rw [scan_contenu_ajoute c fichiers ce hfne hne, List.count_append,
      compte_regle_absente c fichiers e he (hrt e he),
      compte_regle_preventive c fichiers e he hrt]
  · by_cases hne : nouvellesExtensions c fichiers = []
    · rw [scan_sans_nouvelles c fichiers ce hne]
      exact scan_sans_nouvelles c fichiers ce2 hne
    · by_cases hfne : fichiers = []
      · subst hfne
        simp [nouvellesExtensions] at hne
      · rw [scan_contenu_ajoute c fichiers ce hfne hne]
        exact scan_sans_nouvelles _ fichiers ce2 (nouvelles_apres_scan c fichiers hrt)

/-- Witness for C4 at a concrete input: one oversized `.blend2` file; the second
scan over the unchanged file set is a no-op. -/
theorem C4_temoin :
    verifierMettreAJourLfs
        (verifierMettreAJourLfs [] [⟨"grand.blend2", true, 11534336⟩] none).contenu
        [⟨"grand.blend2", true, 11534336⟩] none
      = ⟨(verifierMettreAJourLfs [] [⟨"grand.blend2", true, 11534336⟩] none).contenu,
          false, false, none, false⟩ :=
  (C4_scan_preventif [] [⟨"grand.blend2", true, 11534336⟩] none none (by decide)).2.2.2.2.2

/-! ## Claim C9 — debounce collapsing -/

lemma debounce_aux (d : ℚ) (l : List ℚ) : ∀ (prev : ℚ) (tirs : List ℚ),
    List.Chain' (fun a b => a ≤ b ∧ b < a + d) (prev :: l) →
    List.foldl (fun p t => pasDebounce d p.1 p.2 t) (some (prev + d), tirs) l
      = (some ((prev :: l).getLastD 0 + d), tirs) := by
  induction l with
  | nil => intro prev tirs _; simp [List.getLastD]
  | cons b l2 ih =>
    intro prev tirs hch
    obtain ⟨⟨hab, hlt⟩, hch2⟩ := List.chain'_cons.mp hch
    have hstep : pasDebounce d (some (prev + d)) tirs b = (some (b + d), tirs) := by
      unfold pasDebounce
      dsimp only
      rw [if_neg (not_le.mpr hlt)]
    rw [List.foldl_cons]
    show List.foldl _ (pasDebounce d (some (prev + d)) tirs b) l2 = _
    rw [hstep, ih b tirs hch2]
    simp [List.getLastD_cons]

/-- C9: given at least one qualifying event, each arriving less than the quiet
window after the previous one, the debouncer fires exactly once, at the time of
the last event plus the quiet window; and every handled event re-arms the timer
to its own time plus the window (cancelling the pending one). -/
theorem C9_debounce_regroupe (evts : List ℚ) (hne : evts ≠ [])
    (hch : evts.Chain' (fun a b => a ≤ b ∧ b < a + delaiDebounce)) :
    tirsDebounce delaiDebounce evts = [evts.getLastD 0 + delaiDebounce]
    ∧ ∀ (etat : Option ℚ) (tirs : List ℚ) (t : ℚ),
        (pasDebounce delaiDebounce etat tirs t).1 = some (t + delaiDebounce) := by
  constructor
  · rcases evts with _ | ⟨t0, reste⟩
    · exact absurd rfl hne
    · unfold tirsDebounce
      rw [List.foldl_cons]
      show (match List.foldl _ (pasDebounce delaiDebounce none [] t0) reste with
            | (none, tirs) => tirs
            | (some f, tirs) => tirs ++ [f]) = _
      have h0 : pasDebounce delaiDebounce none [] t0 = (some (t0 + delaiDebounce), []) := rfl
      rw [h0, debounce_aux delaiDebounce reste t0 [] hch]
      simp
  · intro etat tirs t
    unfold pasDebounce
    rcases etat with _ | f
    · rfl
    · dsimp only
      split <;> rfl

/-- Witness for C9: three events at times 0, 1 and 5/2, all gaps below the
3-second window, produce a single firing. -/
theorem C9_temoin :
    tirsDebounce delaiDebounce [0, 1, (5 : ℚ)/2]
      = [([0, 1, (5 : ℚ)/2].getLastD 0) + delaiDebounce] :=
  (C9_debounce_regroupe [0, 1, (5 : ℚ)/2] (by simp)
    (by norm_num [List.chain'_cons, delaiDebounce])).1

/-- Witness for C5: concrete runs of the three behaviors. -/
theorem C5_temoin :
    gererErreurLfsApresPush [] "sansextension" none = ⟨[], [], false, false, none, false⟩
    ∧ gererErreurLfsApresPush [] "grand.psd" none =
        ⟨[] ++ lignesReactives ".psd", [".gitattributes"], true, false, none, true⟩
    ∧ gererErreurLfsApresPush ["*.psd filter=lfs diff=lfs merge=lfs -text"] "grand.psd" none
        = ⟨["*.psd filter=lfs diff=lfs merge=lfs -text"], [], false, false, none, false⟩ :=
  ⟨(C5_gestion_reactive [] "sansextension").1 (by decide) none,
   by
    have h := ((C5_gestion_reactive [] "grand.psd").2.1 (by decide) (by decide)).1
    simpa using h,
   (C5_gestion_reactive ["*.psd filter=lfs diff=lfs merge=lfs -text"] "grand.psd").2.2
     (by decide) (by decide) none⟩

/-! ## Orchestrator lemmas -/

/-- The outcome of the attempt body once control reaches the final push
(line 401), as a function of the rule-file content at that point. -/
def finApresPousse (msgCommit : String) (e : EnvTentative) (t : Nat)
    (c : List String) : Option (IssueSync × Bool) :=
  match e.pushErr with
  | none => some (.pushReussi t, true)
  | some ex =>
    if estErreurTaille (minuscule ex.stderrTexte) then
      if dernierSegmentColon msgCommit == "" then some (.erreurGit t ex, true)
      else if (gererErreurLfsApresPush c (dernierSegmentColon msgCommit)
          e.reactifCommitErr).succes then none
      else some (.erreurGit t ex, true)
    else some (.erreurGit t ex, true)

/-- The rule-file content after the attempt body once control reaches the final push. -/
def contenuApresPousse (msgCommit : String) (e : EnvTentative) (t : Nat)
    (c : List String) : List String :=
  match e.pushErr with
  | none => c
  | some ex =>
    if estErreurTaille (minuscule ex.stderrTexte) then
      if dernierSegmentColon msgCommit == "" then c
      else (gererErreurLfsApresPush c (dernierSegmentColon msgCommit)
          e.reactifCommitErr).contenu
    else c

lemma gere_obs (msgCommit : String) (e : EnvTentative) (t : Nat) (c : List String)
    (tr : Trace) (ex : ErreurGitCmd) :
    (gereErreurGitExterne msgCommit e t c tr ex).fin =
      (if estErreurTaille (minuscule ex.stderrTexte) then
        if dernierSegmentColon msgCommit == "" then some (.erreurGit t ex, true)
        else if (gererErreurLfsApresPush c (dernierSegmentColon msgCommit)
            e.reactifCommitErr).succes then none
        else some (.erreurGit t ex, true)
       else some (.erreurGit t ex, true))
    ∧ (gereErreurGitExterne msgCommit e t c tr ex).contenu =
      (if estErreurTaille (minuscule ex.stderrTexte) then
        if dernierSegmentColon msgCommit == "" then c
        else (gererErreurLfsApresPush c (dernierSegmentColon msgCommit)
            e.reactifCommitErr).contenu
       else c) := by
  unfold gereErreurGitExterne
  dsimp only
  by_cases h1 : estErreurTaille (minuscule ex.stderrTexte) = true
  · by_cases h2 : (dernierSegmentColon msgCommit == "") = true
    · simp [h1, h2]
    · by_cases h3 : (gererErreurLfsApresPush c (dernierSegmentColon msgCommit)
          e.reactifCommitErr).succes = true
      · simp [h1, h2, h3]
      · simp [h1, h2, h3]
  · simp [h1]

lemma pousseeFinale_obs (msgCommit : String) (e : EnvTentative) (t : Nat)
    (c : List String) (tr : Trace) :
    (pousseeFinale msgCommit e t c tr).fin = finApresPousse msgCommit e t c
    ∧ (pousseeFinale msgCommit e t c tr).contenu = contenuApresPousse msgCommit e t c := by
  unfold pousseeFinale finApresPousse contenuApresPousse
  rcases hp : e.pushErr with _ | ex
  · exact ⟨rfl, rfl⟩
  · dsimp only
    exact gere_obs msgCommit e t c _ ex

lemma apresPull_obs (msgCommit : String) (e : EnvTentative) (t : Nat)
    (c : List String) (tr : Trace) (h3 : e.addErr = none)
    (h4 : (!e.aHead || e.diffIndexHead) = true) (h5 : commitSansLevee e = true) :
    (apresPull msgCommit e t c tr).fin = finApresPousse msgCommit e t c
    ∧ (apresPull msgCommit e t c tr).contenu = contenuApresPousse msgCommit e t c := by
  unfold apresPull
  rw [h3]
  dsimp only
  unfold apresAjout
  rw [if_pos h4]
  unfold commitSansLevee at h5
  rcases hce : e.commitErr with _ | ex2
  · exact pousseeFinale_obs msgCommit e t c _
  · rw [hce] at h5
    dsimp only at h5
    dsimp only
    rw [if_pos h5]
    exact pousseeFinale_obs msgCommit e t c _

lemma exec_atteint_obs (msgCommit : String) (e : EnvTentative) (t : Nat)
    (c : List String) (h : atteintPousseFinale e = true) :
    (executeTentative msgCommit e t c).fin = finApresPousse msgCommit e t
        ((verifierMettreAJourLfs c e.fichiersAScanner e.scanCommitErr).contenu)
    ∧ (executeTentative msgCommit e t c).contenu = contenuApresPousse msgCommit e t
        ((verifierMettreAJourLfs c e.fichiersAScanner e.scanCommitErr).contenu) := by
  unfold atteintPousseFinale at h
  rw [Bool.and_eq_true, Bool.and_eq_true, Bool.and_eq_true, Bool.and_eq_true] at h
  obtain ⟨⟨⟨⟨h1, h2⟩, h3⟩, h4⟩, h5⟩ := h
  rw [Bool.not_eq_true'] at h1 h2
  rw [Option.isNone_iff_eq_none] at h3
  unfold executeTentative
  rw [h1]
  dsimp only
  rcases hpe : e.pullErr with _ | pe
  · exact apresPull_obs msgCommit e t _ _ h3 h4 h5
  · dsimp only
    rw [pullTermineTentative, hpe] at h2
    dsimp only at h2
    by_cases hcf : estConflit (minuscule pe.stderrTexte) = true
    · have hres : e.resetEchec = false := by
        cases hre : e.resetEchec
        · rfl
        · rw [hcf, hre] at h2
          simp at h2
      rw [if_pos hcf, hres, if_neg Bool.false_ne_true]
      exact apresPull_obs msgCommit e t _ _ h3 h4 h5
    · rw [if_neg hcf]
      exact apresPull_obs msgCommit e t _ _ h3 h4 h5

/-! ## Claim C7 — resource release on terminal outcomes -/

/-- Pairing of an issue with whether the source closes the repository there. -/
def finCoherente : Option (IssueSync × Bool) → Prop
  | none => True
  | some (i, f) => f = fermetureAttendue i

lemma gere_fin_coherente (msgCommit : String) (e : EnvTentative) (t : Nat)
    (c : List String) (tr : Trace) (ex : ErreurGitCmd) :
    finCoherente (gereErreurGitExterne msgCommit e t c tr ex).fin := by
  rw [(gere_obs msgCommit e t c tr ex).1]
  by_cases h1 : estErreurTaille (minuscule ex.stderrTexte) = true
  · by_cases h2 : (dernierSegmentColon msgCommit == "") = true
    · simp [h1, h2, finCoherente, fermetureAttendue]
    · by_cases h3 : (gererErreurLfsApresPush c (dernierSegmentColon msgCommit)
          e.reactifCommitErr).succes = true
      · simp [h1, h2, h3, finCoherente]
      · simp [h1, h2, h3, finCoherente, fermetureAttendue]
  · simp [h1, finCoherente, fermetureAttendue]

lemma pousseeFinale_fin_coherente (msgCommit : String) (e : EnvTentative) (t : Nat)
    (c : List String) (tr : Trace) :
    finCoherente (pousseeFinale msgCommit e t c tr).fin := by
  unfold pousseeFinale
  rcases hp : e.pushErr with _ | ex
  · simp [finCoherente, fermetureAttendue]
  · dsimp only
    exact gere_fin_coherente msgCommit e t c _ ex

lemma apresAjout_fin_coherente (msgCommit : String) (e : EnvTentative) (t : Nat)
    (c : List String) (tr : Trace) :
    finCoherente (apresAjout msgCommit e t c tr).fin := by
  unfold apresAjout
  by_cases h4 : (!e.aHead || e.diffIndexHead) = true
  · rw [if_pos h4]
    rcases hce : e.commitErr with _ | ex2
    · exact pousseeFinale_fin_coherente msgCommit e t c tr
    · dsimp only
      by_cases hh : hookTolere ex2.texte = true
      · rw [if_pos hh]
        exact pousseeFinale_fin_coherente msgCommit e t c tr
      · rw [if_neg hh]
        exact gere_fin_coherente msgCommit e t c tr ex2
  · rw [if_neg h4]
    by_cases hnc : (e.aHead && t == 0 && !(dansListe msgCommit messagesInitiaux)) = true
    · simp [hnc, finCoherente, fermetureAttendue]
    · simp [hnc, finCoherente]

lemma apresPull_fin_coherente (msgCommit : String) (e : EnvTentative) (t : Nat)
    (c : List String) (tr : Trace) :
    finCoherente (apresPull msgCommit e t c tr).fin := by
  unfold apresPull
  rcases hae : e.addErr with _ | ex
  · dsimp only
    exact apresAjout_fin_coherente msgCommit e t c _
  · dsimp only
    exact gere_fin_coherente msgCommit e t c _ ex

lemma exec_fin_coherente (msgCommit : String) (e : EnvTentative) (t : Nat)
    (c : List String) :
    finCoherente (executeTentative msgCommit e t c).fin := by
  unfold executeTentative
  by_cases h1 : e.inattendue = true
  · simp [h1, finCoherente, fermetureAttendue]
  · rw [if_neg h1]
    dsimp only
    rcases hpe : e.pullErr with _ | pe
    · exact apresPull_fin_coherente msgCommit e t _ _
    · dsimp only
      by_cases hcf : estConflit (minuscule pe.stderrTexte) = true
      · rw [if_pos hcf]
        by_cases hre : e.resetEchec = true
        · simp [hre, finCoherente, fermetureAttendue]
        · rw [if_neg hre]
          exact apresPull_fin_coherente msgCommit e t _ _
      · rw [if_neg hcf]
        exact apresPull_fin_coherente msgCommit e t _ _

lemma boucle_fermeture (msgCommit : String) (env : Nat → EnvTentative) :
    ∀ (r t : Nat) (c : List String) (tr : Trace),
    (boucleSync msgCommit env r t c tr).ferme
      = fermetureAttendue (boucleSync msgCommit env r t c tr).issue := by
  intro r
  induction r with
  | zero => intro t c tr; rfl
  | succ r ih =>
    intro t c tr
    rcases hE : executeTentative msgCommit (env t) t c with ⟨c2, tr2, fin2⟩
    rcases fin2 with _ | ⟨i, f⟩
    · simp only [boucleSync, hE]
      exact ih (t + 1) c2 (tr.plus tr2)
    · have hcoh := exec_fin_coherente msgCommit (env t) t c
      rw [hE] at hcoh
      simp only [boucleSync, hE]
      exact hcoh

/-- A clean attempt environment: no failures, a head exists and the stage
differs from it, so the attempt commits and pushes successfully. -/
def envPropre : EnvTentative :=
  ⟨false, [], none, none, false, none, true, true, none, none, none⟩

/-- C7 counterexample to the claim as stated: on the "no changes" terminal
outcome (line 417) the source returns without calling `repo.close()`. -/
theorem C7_contre_exemple :
    (synchroniserChangement "Synchronisation automatique des changements"
        (fun _ => { envPropre with diffIndexHead := false }) []).issue
      = .pasDeChangement 0
    ∧ (synchroniserChangement "Synchronisation automatique des changements"
        (fun _ => { envPropre with diffIndexHead := false }) []).ferme = false := by
  constructor
  · decide
  · decide

/-- C7 (amended): `repo.close()` is called exactly on the terminal outcomes
successful push, outer git-error termination and unexpected exception — and not
on the "no changes" return, the failed-forced-alignment return, or exhaustion of
the attempt loop. -/
theorem C7_fermeture_selective (msgCommit : String) (env : Nat → EnvTentative)
    (c0 : List String) :
    (synchroniserChangement msgCommit env c0).ferme
      = fermetureAttendue (synchroniserChangement msgCommit env c0).issue :=
  boucle_fermeture msgCommit env 2 0 c0 traceVide

/-! ## Claim C1 — at most two attempts, one reactive retry -/

lemma boucle_tentatives_le (msgCommit : String) (env : Nat → EnvTentative) :
    ∀ (r t : Nat) (c : List String) (tr : Trace),
    (boucleSync msgCommit env r t c tr).tentatives ≤ t + r := by
  intro r
  induction r with
  | zero => intro t c tr; simp [boucleSync]
  | succ r ih =>
    intro t c tr
    rcases hE : executeTentative msgCommit (env t) t c with ⟨c2, tr2, fin2⟩
    rcases fin2 with _ | ⟨i, f⟩
    · simp only [boucleSync, hE]
      have := ih (t + 1) c2 (tr.plus tr2)
      omega
    · simp only [boucleSync, hE]
      omega

lemma boucle_un_tentatives (msgCommit : String) (env : Nat → EnvTentative)
    (t : Nat) (c : List String) (tr : Trace) :
    (boucleSync msgCommit env 1 t c tr).tentatives = t + 1 := by
  rcases hE : executeTentative msgCommit (env t) t c with ⟨c2, tr2, fin2⟩
  rcases fin2 with _ | ⟨i, f⟩ <;> simp [boucleSync, hE]

lemma boucle_deux_fin (msgCommit : String) (env : Nat → EnvTentative)
    (c : List String) (tr : Trace) {c2 : List String} {tr2 : Trace}
    {i : IssueSync} {f : Bool}
    (hE : executeTentative msgCommit (env 0) 0 c = ⟨c2, tr2, some (i, f)⟩) :
    boucleSync msgCommit env 2 0 c tr = ⟨i, c2, f, 1, tr.plus tr2⟩ := by
  show boucleSync msgCommit env (1 + 1) 0 c tr = _
  simp only [boucleSync, hE]

lemma boucle_deux_continue (msgCommit : String) (env : Nat → EnvTentative)
    (c : List String) (tr : Trace) {c2 : List String} {tr2 : Trace}
    (hE : executeTentative msgCommit (env 0) 0 c = ⟨c2, tr2, none⟩) :
    boucleSync msgCommit env 2 0 c tr = boucleSync msgCommit env 1 1 c2 (tr.plus tr2) := by
  show boucleSync msgCommit env (1 + 1) 0 c tr = _
  simp only [boucleSync, hE]

/-- C1: every invocation runs at most 2 attempts; when the first attempt reaches
the final push, the push fails with a size-classified diagnostic, a file name is
derivable from the commit message and the reactive handler reports success,
exactly one additional attempt is started (2 in total); when no name is
derivable or the handler reports no-op, no additional attempt is made and the
run terminates with the git error (no successful push). -/
theorem C1_retentative_bornee (msgCommit : String) (env : Nat → EnvTentative)
    (c0 : List String) :
    ((synchroniserChangement msgCommit env c0).tentatives ≤ 2)
    ∧ (∀ ex, atteintPousseFinale (env 0) = true → (env 0).pushErr = some ex →
        estErreurTaille (minuscule ex.stderrTexte) = true →
        (dernierSegmentColon msgCommit == "") = false →
        (gererErreurLfsApresPush
            ((verifierMettreAJourLfs c0 (env 0).fichiersAScanner (env 0).scanCommitErr).contenu)
            (dernierSegmentColon msgCommit) (env 0).reactifCommitErr).succes = true →
        (synchroniserChangement msgCommit env c0).tentatives = 2)
    ∧ (∀ ex, atteintPousseFinale (env 0) = true → (env 0).pushErr = some ex →
        estErreurTaille (minuscule ex.stderrTexte) = true →
        ((dernierSegmentColon msgCommit == "") = true
          ∨ (gererErreurLfsApresPush
              ((verifierMettreAJourLfs c0 (env 0).fichiersAScanner (env 0).scanCommitErr).contenu)
              (dernierSegmentColon msgCommit) (env 0).reactifCommitErr).succes = false) →
        (synchroniserChangement msgCommit env c0).tentatives = 1
          ∧ (synchroniserChangement msgCommit env c0).issue = .erreurGit 0 ex) := by
  refine ⟨boucle_tentatives_le msgCommit env 2 0 c0 traceVide, ?_, ?_⟩
  · intro ex hA hp ht hn hs
    have hfin : (executeTentative msgCommit (env 0) 0 c0).fin = none := by
      rw [(exec_atteint_obs msgCommit (env 0) 0 c0 hA).1]
      unfold finApresPousse
      rw [hp]
      dsimp only
      rw [if_pos ht, if_neg (by simp [hn]), if_pos hs]
    rcases hE : executeTentative msgCommit (env 0) 0 c0 with ⟨c2, tr2, fin2⟩
    rw [hE] at hfin
    dsimp only at hfin
    subst hfin
    unfold synchroniserChangement
    rw [boucle_deux_continue msgCommit env c0 traceVide hE, boucle_un_tentatives]
  · intro ex hA hp ht hd
    have hfin : (executeTentative msgCommit (env 0) 0 c0).fin
        = some (.erreurGit 0 ex, true) := by
      rw [(exec_atteint_obs msgCommit (env 0) 0 c0 hA).1]
      unfold finApresPousse
      rw [hp]
      dsimp only
      rw [if_pos ht]
      rcases hd with hn | hs
      · rw [if_pos hn]
      · by_cases hn : (dernierSegmentColon msgCommit == "") = true
        · rw [if_pos hn]
        · rw [if_neg hn, if_neg (by simp [hs])]
    rcases hE : executeTentative msgCommit (env 0) 0 c0 with ⟨c2, tr2, fin2⟩
    rw [hE] at hfin
    dsimp only at hfin
    subst hfin
    unfold synchroniserChangement
    rw [boucle_deux_fin msgCommit env c0 traceVide hE]
    exact ⟨rfl, rfl⟩

/-- A push failure whose diagnostic is classified as oversized. -/
def exTailleTemoin : ErreurGitCmd :=
  ⟨"git push failed", "remote: error: gh001: large files detected. file size exceeds limit"⟩

/-- Witness for C1: a run whose first push fails oversized and whose reactive
correction succeeds performs exactly 2 attempts; with the rule already present
the run stops after 1 attempt. -/
theorem C1_temoin :
    (synchroniserChangement "Created : grand.psd"
        (fun t => if t == 0 then { envPropre with pushErr := some exTailleTemoin }
                  else envPropre) []).tentatives = 2
    ∧ (synchroniserChangement "Created : grand.psd"
        (fun _ => { envPropre with pushErr := some exTailleTemoin })
        ["*.psd filter=lfs diff=lfs merge=lfs -text"]).tentatives = 1 :=
  ⟨(C1_retentative_bornee "Created : grand.psd"
      (fun t => if t == 0 then { envPropre with pushErr := some exTailleTemoin }
                else envPropre) []).2.1 exTailleTemoin
      (by decide) (by decide) (by decide) (by decide) (by decide),
   ((C1_retentative_bornee "Created : grand.psd"
      (fun _ => { envPropre with pushErr := some exTailleTemoin })
      ["*.psd filter=lfs diff=lfs merge=lfs -text"]).2.2 exTailleTemoin
      (by decide) (by decide) (by decide) (Or.inr (by decide))).1⟩

/-! ## Claim C2 — merge conflicts force-align to the remote, fatal reset aborts -/

lemma gere_align (msgCommit : String) (e : EnvTentative) (t : Nat)
    (c : List String) (tr : Trace) (ex : ErreurGitCmd) :
    (gereErreurGitExterne msgCommit e t c tr ex).trace.alignementsForces
      = tr.alignementsForces := by
  unfold gereErreurGitExterne
  dsimp only
  by_cases h1 : estErreurTaille (minuscule ex.stderrTexte) = true
  · by_cases h2 : (dernierSegmentColon msgCommit == "") = true
    · simp [h1, h2]
    · by_cases h3 : (gererErreurLfsApresPush c (dernierSegmentColon msgCommit)
          e.reactifCommitErr).succes = true
      · simp [h1, h2, h3, Trace.plus]
      · simp [h1, h2, h3, Trace.plus]
  · simp [h1]

lemma pousseeFinale_align (msgCommit : String) (e : EnvTentative) (t : Nat)
    (c : List String) (tr : Trace) :
    (pousseeFinale msgCommit e t c tr).trace.alignementsForces
      = tr.alignementsForces := by
  unfold pousseeFinale
  rcases hp : e.pushErr with _ | ex
  · rfl
  · dsimp only
    rw [gere_align]

lemma apresAjout_align (msgCommit : String) (e : EnvTentative) (t : Nat)
    (c : List String) (tr : Trace) :
    (apresAjout msgCommit e t c tr).trace.alignementsForces = tr.alignementsForces := by
  unfold apresAjout
  by_cases h4 : (!e.aHead || e.diffIndexHead) = true
  · rw [if_pos h4]
    rcases hce : e.commitErr with _ | ex2
    · rw [pousseeFinale_align]
    · dsimp only
      by_cases hh : hookTolere ex2.texte = true
      · rw [if_pos hh, pousseeFinale_align]
      · rw [if_neg hh, gere_align]
  · rw [if_neg h4]
    by_cases hnc : (e.aHead && t == 0 && !(dansListe msgCommit messagesInitiaux)) = true
    · simp [hnc]
    · simp [hnc]

lemma apresPull_align (msgCommit : String) (e : EnvTentative) (t : Nat)
    (c : List String) (tr : Trace) :
    (apresPull msgCommit e t c tr).trace.alignementsForces = tr.alignementsForces := by
  unfold apresPull
  rcases hae : e.addErr with _ | ex
  · dsimp only
    rw [apresAjout_align]
  · dsimp only
    rw [gere_align]

lemma exec_reset_fatal (msgCommit : String) (e : EnvTentative) (t : Nat)
    (c : List String) (pe : ErreurGitCmd) (h0 : e.inattendue = false)
    (hpe : e.pullErr = some pe) (hc : estConflit (minuscule pe.stderrTexte) = true)
    (hres : e.resetEchec = true) :
    executeTentative msgCommit e t c =
      ⟨(verifierMettreAJourLfs c e.fichiersAScanner e.scanCommitErr).contenu,
        ⟨0, 0, if (verifierMettreAJourLfs c e.fichiersAScanner e.scanCommitErr).commitRegleTente
            then 1 else 0, 0, 0, 1⟩,
        some (.resetFatal t, false)⟩ := by
  unfold executeTentative
  rw [h0, if_neg Bool.false_ne_true]
  dsimp only
  rw [hpe]
  dsimp only
  rw [if_pos hc, if_pos hres]

/-- C2: in every attempt whose pull fails with a conflict-classified diagnostic
and whose forced alignment succeeds, exactly one `fetch` + `reset --hard` is
performed; if the forced alignment itself fails, the attempt stops right there —
its trace shows no stage, no content commit and no push — and the whole
invocation terminates (shown for the first attempt: outcome `resetFatal`, one
attempt, nothing staged or pushed in the entire run). -/
theorem C2_conflit_alignement_force (msgCommit : String) (env : Nat → EnvTentative)
    (c0 : List String) (pe : ErreurGitCmd) :
    (∀ (e : EnvTentative) (t : Nat) (c : List String),
      e.inattendue = false → e.pullErr = some pe →
      estConflit (minuscule pe.stderrTexte) = true → e.resetEchec = false →
      (executeTentative msgCommit e t c).trace.alignementsForces = 1)
    ∧ (∀ (e : EnvTentative) (t : Nat) (c : List String),
      e.inattendue = false → e.pullErr = some pe →
      estConflit (minuscule pe.stderrTexte) = true → e.resetEchec = true →
      (executeTentative msgCommit e t c).fin = some (.resetFatal t, false)
        ∧ (executeTentative msgCommit e t c).trace.ajoutsIndex = 0
        ∧ (executeTentative msgCommit e t c).trace.commitsContenu = 0
        ∧ (executeTentative msgCommit e t c).trace.poussesFinales = 0
        ∧ (executeTentative msgCommit e t c).trace.echecsAlignement = 1)
    ∧ ((env 0).inattendue = false → (env 0).pullErr = some pe →
        estConflit (minuscule pe.stderrTexte) = true → (env 0).resetEchec = true →
        (synchroniserChangement msgCommit env c0).issue = .resetFatal 0
        ∧ (synchroniserChangement msgCommit env c0).ferme = false
        ∧ (synchroniserChangement msgCommit env c0).tentatives = 1
        ∧ (synchroniserChangement msgCommit env c0).trace.ajoutsIndex = 0
        ∧ (synchroniserChangement msgCommit env c0).trace.commitsContenu = 0
        ∧ (synchroniserChangement msgCommit env c0).trace.poussesFinales = 0
        ∧ (synchroniserChangement msgCommit env c0).trace.echecsAlignement = 1) := by
  refine ⟨?_, ?_, ?_⟩
  · intro e t c h0 hpe hc hres
    unfold executeTentative
    rw [h0, if_neg Bool.false_ne_true]
    dsimp only
    rw [hpe]
    dsimp only
    rw [if_pos hc, hres, if_neg Bool.false_ne_true, apresPull_align]
  · intro e t c h0 hpe hc hres
    rw [exec_reset_fatal msgCommit e t c pe h0 hpe hc hres]
    exact ⟨rfl, rfl, rfl, rfl, rfl⟩
  · intro h0 hpe hc hres
    have hE := exec_reset_fatal msgCommit (env 0) 0 c0 pe h0 hpe hc hres
    unfold synchroniserChangement
    rw [boucle_deux_fin msgCommit env c0 traceVide hE]
    refine ⟨rfl, rfl, rfl, ?_, ?_, ?_, ?_⟩ <;>
      simp [Trace.plus, traceVide]

/-- A pull failure whose diagnostic is classified as a merge conflict. -/
def exConflitTemoin : ErreurGitCmd :=
  ⟨"pull failed", "merge conflict in fichier.bin"⟩

/-- Witness for C2: with a conflict-classified pull failure the attempt performs
one forced alignment; with a failing reset the whole run aborts as `resetFatal`. -/
theorem C2_temoin :
    (executeTentative "m" { envPropre with pullErr := some exConflitTemoin } 0
        []).trace.alignementsForces = 1
    ∧ (synchroniserChangement "m"
        (fun _ => { envPropre with pullErr := some exConflitTemoin, resetEchec := true })
        []).issue = .resetFatal 0 :=
  ⟨(C2_conflit_alignement_force "m" (fun _ => envPropre) [] exConflitTemoin).1
      { envPropre with pullErr := some exConflitTemoin } 0 []
      (by decide) (by decide) (by decide) (by decide),
   ((C2_conflit_alignement_force "m"
      (fun _ => { envPropre with pullErr := some exConflitTemoin, resetEchec := true })
      [] exConflitTemoin).2.2 (by decide) (by decide) (by decide) (by decide)).1⟩

/-! ## Claim C3 — "no changes" idempotence -/

/-- An attempt environment describing a clean repository state with a head
commit and no staged difference against it: no unexpected exception, nothing
for the preventive scan to examine, a pull step that does not terminate the
run, a successful stage, `HEAD` present and an empty index diff. -/
def envSansChangement (e : EnvTentative) : Bool :=
  !e.inattendue && e.fichiersAScanner.isEmpty && !pullTermineTentative e
    && e.addErr.isNone && e.aHead && !e.diffIndexHead

lemma exec_sans_changement (msgCommit : String) (e : EnvTentative) (c : List String)
    (h : envSansChangement e = true)
    (hmsg : dansListe msgCommit messagesInitiaux = false) :
    ∃ a, executeTentative msgCommit e 0 c
      = ⟨c, ⟨1, 0, 0, 0, a, 0⟩, some (.pasDeChangement 0, false)⟩ := by
  unfold envSansChangement at h
  rw [Bool.and_eq_true, Bool.and_eq_true, Bool.and_eq_true, Bool.and_eq_true,
    Bool.and_eq_true] at h
  obtain ⟨⟨⟨⟨⟨h1, hf⟩, h2⟩, h3⟩, h4⟩, h5⟩ := h
  rw [Bool.not_eq_true'] at h1 h2 h5
  rw [Option.isNone_iff_eq_none] at h3
  rw [List.isEmpty_iff] at hf
  have hscan : verifierMettreAJourLfs c e.fichiersAScanner e.scanCommitErr
      = ⟨c, false, false, none, false⟩ := by
    rw [hf]
    exact scan_sans_nouvelles c [] _ (by simp [nouvellesExtensions])
  have happ : ∀ tr : Trace, apresAjout msgCommit e 0 c tr
      = ⟨c, tr, some (.pasDeChangement 0, false)⟩ := by
    intro tr
    unfold apresAjout
    rw [h4, h5, if_neg (by decide), hmsg]
    rw [if_pos (by decide)]
  have hpull : ∀ tr : Trace, apresPull msgCommit e 0 c tr
      = ⟨c, { tr with ajoutsIndex := tr.ajoutsIndex + 1 },
          some (.pasDeChangement 0, false)⟩ := by
    intro tr
    unfold apresPull
    rw [h3]
    dsimp only
    exact happ _
  rcases hpe : e.pullErr with _ | pe
  · refine ⟨0, ?_⟩
    unfold executeTentative
    rw [h1, if_neg Bool.false_ne_true]
    dsimp only
    rw [hpe]
    dsimp only
    rw [hscan]
    dsimp only
    rw [hpull]
    rfl
  · by_cases hcf : estConflit (minuscule pe.stderrTexte) = true
    · have hres : e.resetEchec = false := by
        rw [pullTermineTentative, hpe] at h2
        dsimp only at h2
        cases hre : e.resetEchec
        · rfl
        · rw [hcf, hre] at h2
          simp at h2
      refine ⟨1, ?_⟩
      unfold executeTentative
      rw [h1, if_neg Bool.false_ne_true]
      dsimp only
      rw [hpe]
      dsimp only
      rw [hscan]
      dsimp only
      rw [if_pos hcf, hres, if_neg Bool.false_ne_true, hpull]
      rfl
    · refine ⟨0, ?_⟩
      unfold executeTentative
      rw [h1, if_neg Bool.false_ne_true]
      dsimp only
      rw [hpe]
      dsimp only
      rw [hscan]
      dsimp only
      rw [if_neg hcf, hpull]
      rfl

lemma sync_sans_changement (msgCommit : String) (env : Nat → EnvTentative)
    (c0 : List String) (h : envSansChangement (env 0) = true)
    (hmsg : dansListe msgCommit messagesInitiaux = false) :
    ∃ a, synchroniserChangement msgCommit env c0
      = ⟨.pasDeChangement 0, c0, false, 1, ⟨1, 0, 0, 0, a, 0⟩⟩ := by
  obtain ⟨a, hE⟩ := exec_sans_changement msgCommit (env 0) c0 h hmsg
  refine ⟨0 + a, ?_⟩
  unfold synchroniserChangement
  rw [boucle_deux_fin msgCommit env c0 traceVide hE]
  rfl

/-- C3: on a state with an existing head and no staged difference, a non-initial
message on the first attempt reports "no changes" and terminates with no commit
and no push, leaving the rule file unchanged; running the orchestrator twice in
a row in that state reports "no changes" the second time as well, again with no
commit and no push. -/
theorem C3_idempotence (msgCommit : String) (env env2 : Nat → EnvTentative)
    (c0 : List String) (h : envSansChangement (env 0) = true)
    (hmsg : dansListe msgCommit messagesInitiaux = false)
    (h2 : envSansChangement (env2 0) = true) :
    ((synchroniserChangement msgCommit env c0).issue = .pasDeChangement 0
      ∧ (synchroniserChangement msgCommit env c0).contenu = c0
      ∧ (synchroniserChangement msgCommit env c0).ferme = false
      ∧ (synchroniserChangement msgCommit env c0).tentatives = 1
      ∧ (synchroniserChangement msgCommit env c0).trace.commitsContenu = 0
      ∧ (synchroniserChangement msgCommit env c0).trace.commitsRegles = 0
      ∧ (synchroniserChangement msgCommit env c0).trace.poussesFinales = 0)
    ∧ ((synchroniserChangement msgCommit env2
          (synchroniserChangement msgCommit env c0).contenu).issue = .pasDeChangement 0
      ∧ (synchroniserChangement msgCommit env2
          (synchroniserChangement msgCommit env c0).contenu).contenu = c0
      ∧ (synchroniserChangement msgCommit env2
          (synchroniserChangement msgCommit env c0).contenu).trace.commitsContenu = 0
      ∧ (synchroniserChangement msgCommit env2
          (synchroniserChangement msgCommit env c0).contenu).trace.poussesFinales = 0) := by
  obtain ⟨a1, hr1⟩ := sync_sans_changement msgCommit env c0 h hmsg
  obtain ⟨a2, hr2⟩ := sync_sans_changement msgCommit env2 c0 h2 hmsg
  rw [hr1]
  dsimp only
  rw [hr2]
  exact ⟨⟨rfl, rfl, rfl, rfl, rfl, rfl, rfl⟩, rfl, rfl, rfl, rfl⟩

/-- Witness for C3 at a concrete clean state: both consecutive runs report
"no changes" and leave the rule file as it was. -/
theorem C3_temoin :
    (synchroniserChangement "Synchronisation automatique des changements"
        (fun _ => { envPropre with diffIndexHead := false }) ["*.exe"]).issue
      = .pasDeChangement 0
    ∧ (synchroniserChangement "Synchronisation automatique des changements"
        (fun _ => { envPropre with diffIndexHead := false })
        (synchroniserChangement "Synchronisation automatique des changements"
          (fun _ => { envPropre with diffIndexHead := false }) ["*.exe"]).contenu).contenu
      = ["*.exe"] :=
  ⟨(C3_idempotence "Synchronisation automatique des changements"
      (fun _ => { envPropre with diffIndexHead := false })
      (fun _ => { envPropre with diffIndexHead := false }) ["*.exe"]
      (by decide) (by decide) (by decide)).1.1,
   (C3_idempotence "Synchronisation automatique des changements"
      (fun _ => { envPropre with diffIndexHead := false })
      (fun _ => { envPropre with diffIndexHead := false }) ["*.exe"]
      (by decide) (by decide) (by decide)).2.2.1⟩

/-! ## Claim C6 — hook tolerance of the policy commits -/

lemma scan_contenu_indep (c : List String) (fichiers : List Fichier) (ce : Option String) :
    (verifierMettreAJourLfs c fichiers ce).contenu
      = (verifierMettreAJourLfs c fichiers none).contenu
    ∧ (verifierMettreAJourLfs c fichiers ce).commitRegleTente
      = (verifierMettreAJourLfs c fichiers none).commitRegleTente := by
  by_cases h1 : fichiers.isEmpty = true
  · simp [verifierMettreAJourLfs, h1]
  · by_cases h2 : (nouvellesExtensions c fichiers).isEmpty = true
    · simp [verifierMettreAJourLfs, h1, h2]
    · rcases ce with _ | m
      · exact ⟨rfl, rfl⟩
      · by_cases h3 : hookTolere m = true <;>
          simp [verifierMettreAJourLfs, h1, h2, h3]

lemma gere_congr (msgCommit : String) (e1 e2 : EnvTentative)
    (hr : e1.reactifCommitErr = e2.reactifCommitErr) (t : Nat) (c : List String)
    (tr : Trace) (ex : ErreurGitCmd) :
    gereErreurGitExterne msgCommit e1 t c tr ex
      = gereErreurGitExterne msgCommit e2 t c tr ex := by
  unfold gereErreurGitExterne
  rw [hr]

lemma pousseeFinale_congr (msgCommit : String) (e1 e2 : EnvTentative)
    (hp : e1.pushErr = e2.pushErr) (hr : e1.reactifCommitErr = e2.reactifCommitErr)
    (t : Nat) (c : List String) (tr : Trace) :
    pousseeFinale msgCommit e1 t c tr = pousseeFinale msgCommit e2 t c tr := by
  unfold pousseeFinale
  rw [hp]
  rcases hpp : e2.pushErr with _ | ex
  · rfl
  · dsimp only
    exact gere_congr msgCommit e1 e2 hr t c _ ex

lemma apresAjout_congr (msgCommit : String) (e1 e2 : EnvTentative)
    (hh : e1.aHead = e2.aHead) (hd : e1.diffIndexHead = e2.diffIndexHead)
    (hc : e1.commitErr = e2.commitErr) (hp : e1.pushErr = e2.pushErr)
    (hr : e1.reactifCommitErr = e2.reactifCommitErr)
    (t : Nat) (c : List String) (tr : Trace) :
    apresAjout msgCommit e1 t c tr = apresAjout msgCommit e2 t c tr := by
  unfold apresAjout
  rw [hh, hd, hc]
  by_cases h4 : (!e2.aHead || e2.diffIndexHead) = true
  · rw [if_pos h4, if_pos h4]
    rcases hce : e2.commitErr with _ | ex2
    · dsimp only
      exact pousseeFinale_congr msgCommit e1 e2 hp hr t c tr
    · dsimp only
      by_cases hht : hookTolere ex2.texte = true
      · rw [if_pos hht, if_pos hht]
        exact pousseeFinale_congr msgCommit e1 e2 hp hr t c tr
      · rw [if_neg hht, if_neg hht]
        exact gere_congr msgCommit e1 e2 hr t c tr ex2
  · rw [if_neg h4, if_neg h4]

lemma apresPull_congr (msgCommit : String) (e1 e2 : EnvTentative)
    (ha : e1.addErr = e2.addErr) (hh : e1.aHead = e2.aHead)
    (hd : e1.diffIndexHead = e2.diffIndexHead) (hc : e1.commitErr = e2.commitErr)
    (hp : e1.pushErr = e2.pushErr) (hr : e1.reactifCommitErr = e2.reactifCommitErr)
    (t : Nat) (c : List String) (tr : Trace) :
    apresPull msgCommit e1 t c tr = apresPull msgCommit e2 t c tr := by
  unfold apresPull
  rw [ha]
  rcases hae : e2.addErr with _ | ex
  · dsimp only
    exact apresAjout_congr msgCommit e1 e2 hh hd hc hp hr t c _
  · dsimp only
    exact gere_congr msgCommit e1 e2 hr t c _ ex

lemma exec_scan_err_indifferent (msgCommit : String) (e : EnvTentative) (t : Nat)
    (c : List String) (ce : Option String) :
    executeTentative msgCommit { e with scanCommitErr := ce } t c
      = executeTentative msgCommit { e with scanCommitErr := none } t c := by
  by_cases hi : e.inattendue = true
  · simp [executeTentative, hi]
  · unfold executeTentative
    dsimp only
    rw [if_neg hi, if_neg hi,
      (scan_contenu_indep c e.fichiersAScanner ce).1,
      (scan_contenu_indep c e.fichiersAScanner ce).2]
    rcases hpe : e.pullErr with _ | pe
    · dsimp only
      exact apresPull_congr msgCommit _ _ rfl rfl rfl rfl rfl rfl t _ _
    · dsimp only
      by_cases hcf : estConflit (minuscule pe.stderrTexte) = true
      · by_cases hre : e.resetEchec = true
        · rw [if_pos hcf, if_pos hcf, if_pos hre, if_pos hre]
        · rw [if_pos hcf, if_pos hcf, if_neg hre, if_neg hre]
          exact apresPull_congr msgCommit _ _ rfl rfl rfl rfl rfl rfl t _ _
      · rw [if_neg hcf, if_neg hcf]
        exact apresPull_congr msgCommit _ _ rfl rfl rfl rfl rfl rfl t _ _

/-- Modelled from the spec: §4.1 words the reactive path as "any other commit
failure is re-raised", i.e. a non-hook commit failure reaches the caller of the
policy-manager operation as an exception; this definition follows those words
(result type `Except`, with `Except.error` for the re-raise). The source code
instead catches its own re-raise in the catch-all of line 327. -/
def gererSelonSpec (contenu : List String) (cheminFichier : String)
    (commitErr : Option String) : Except String SortieReactive :=
  let ext := extensionDe cheminFichier
  if ext == "" then .ok ⟨contenu, [], false, false, none, false⟩
  else if contenuContient contenu (motifRegle ext) then
    .ok ⟨contenu, [], false, false, none, false⟩
  else
    let contenu2 := contenu ++ lignesReactives ext
    match commitErr with
    | none => .ok ⟨contenu2, [".gitattributes"], true, false, none, true⟩
    | some m =>
      if hookTolere m then .ok ⟨contenu2, [".gitattributes"], true, true, none, true⟩
      else .error m

/-- Whether an operation result is an exception reaching the caller. -/
def estLevee : Except String SortieReactive → Bool
  | .error _ => true
  | .ok _ => false

/-- C6 counterexample to the claim as stated: on a non-hook commit failure the
spec-modelled operation re-raises to its caller, but the code returns normally —
the exception is caught inside the handler itself, which reports plain failure. -/
theorem C6_contre_exemple :
    estLevee (gererSelonSpec [] "grand.psd"
        (some "fatal: unable to write new index file")) = true
    ∧ (gererErreurLfsApresPush [] "grand.psd"
        (some "fatal: unable to write new index file")).succes = false
    ∧ (gererErreurLfsApresPush [] "grand.psd"
        (some "fatal: unable to write new index file")).exceptionAttrapee
      = some "fatal: unable to write new index file" := by
  refine ⟨?_, ?_, ?_⟩ <;> decide

/-- C6 (amended): in both policy paths a hook-classified commit failure is
tolerated — the operation completes exactly as if the commit had succeeded
(and, preventively, still pushes) — while a commit failure of any other kind
aborts the operation: the re-raised exception is caught by the operation's own
catch-all, which logs it and returns failure, so nothing is re-raised to the
caller: the orchestrator behaves identically whatever the scan commit outcome. -/
theorem C6_tolerance_hook (contenu : List String) (fichiers : List Fichier)
    (chemin : String) (m : String) :
    (hookTolere m = true →
      (verifierMettreAJourLfs contenu fichiers (some m)).contenu
          = (verifierMettreAJourLfs contenu fichiers none).contenu
      ∧ (verifierMettreAJourLfs contenu fichiers (some m)).exceptionAttrapee = none
      ∧ (verifierMettreAJourLfs contenu fichiers (some m)).pousseePreventive
          = (verifierMettreAJourLfs contenu fichiers none).pousseePreventive)
    ∧ (hookTolere m = false →
        (verifierMettreAJourLfs contenu fichiers (some m)).commitRegleTente = true →
        (verifierMettreAJourLfs contenu fichiers (some m)).exceptionAttrapee = some m
        ∧ (verifierMettreAJourLfs contenu fichiers (some m)).pousseePreventive = false)
    ∧ (hookTolere m = true →
        (gererErreurLfsApresPush contenu chemin (some m)).succes
            = (gererErreurLfsApresPush contenu chemin none).succes
        ∧ (gererErreurLfsApresPush contenu chemin (some m)).exceptionAttrapee = none
        ∧ (gererErreurLfsApresPush contenu chemin (some m)).contenu
            = (gererErreurLfsApresPush contenu chemin none).contenu)
    ∧ (hookTolere m = false →
        (gererErreurLfsApresPush contenu chemin (some m)).commitTente = true →
        (gererErreurLfsApresPush contenu chemin (some m)).succes = false
        ∧ (gererErreurLfsApresPush contenu chemin (some m)).exceptionAttrapee = some m)
    ∧ (∀ (msgCommit : String) (e : EnvTentative) (t : Nat) (c : List String)
          (ce : Option String),
        executeTentative msgCommit { e with scanCommitErr := ce } t c
          = executeTentative msgCommit { e with scanCommitErr := none } t c) := by
  refine ⟨?_, ?_, ?_, ?_, fun msgCommit e t c ce =>
    exec_scan_err_indifferent msgCommit e t c ce⟩
  · intro hh
    by_cases h1 : fichiers.isEmpty = true
    · simp [verifierMettreAJourLfs, h1]
    · by_cases h2 : (nouvellesExtensions contenu fichiers).isEmpty = true
      · simp [verifierMettreAJourLfs, h1, h2]
      · simp [verifierMettreAJourLfs, h1, h2, hh]
  · intro hh ht
    by_cases h1 : fichiers.isEmpty = true
    · simp [verifierMettreAJourLfs, h1] at ht
    · by_cases h2 : (nouvellesExtensions contenu fichiers).isEmpty = true
      · simp [verifierMettreAJourLfs, h1, h2] at ht
      · simp [verifierMettreAJourLfs, h1, h2, hh]
  · intro hh
    by_cases h1 : (extensionDe chemin == "") = true
    · simp [gererErreurLfsApresPush, h1]
    · by_cases h2 : contenuContient contenu (motifRegle (extensionDe chemin)) = true
      · simp [gererErreurLfsApresPush, h1, h2]
      · simp [gererErreurLfsApresPush, h1, h2, hh]
  · intro hh ht
    by_cases h1 : (extensionDe chemin == "") = true
    · simp [gererErreurLfsApresPush, h1] at ht
    · by_cases h2 : contenuContient contenu (motifRegle (extensionDe chemin)) = true
      · simp [gererErreurLfsApresPush, h1, h2] at ht
      · simp [gererErreurLfsApresPush, h1, h2, hh]

/-- Witness for C6: a hook failure still reports success on the reactive path,
and a non-hook failure on the preventive path is caught, not re-raised. -/
theorem C6_temoin :
    (gererErreurLfsApresPush [] "grand.psd"
        (some "Hook script pre-commit failed")).succes = true
    ∧ (verifierMettreAJourLfs [] [⟨"grand.blend2", true, 11534336⟩]
        (some "fatal: disque plein")).exceptionAttrapee = some "fatal: disque plein" :=
  ⟨(((C6_tolerance_hook [] [] "grand.psd" "Hook script pre-commit failed").2.2.1
      (by decide)).1).trans (by decide),
   ((C6_tolerance_hook [] [⟨"grand.blend2", true, 11534336⟩] "x"
      "fatal: disque plein").2.1 (by decide) (by decide)).1⟩

end SyncCloud
